import Mathlib

/-!
# Verification of the RAG retrieval and scoring pipeline

Shallow embedding of the core retrieval/scoring code of the repository
(`src/server/vector/vectorStore.js` and `src/server/rag/ragPipeline.js`).

Modelling conventions:
* JavaScript strings are modelled as `List Char`; `charCodeAt` as `Char.toNat`
  (identical on the BMP characters that occur here), `toLowerCase` as
  `Char.toLower` on each character.
* JavaScript numbers are idealised as real numbers `ℝ`; the 32-bit signed
  integer wrap-around produced by `<<`, `&` in the hash loop is modelled
  exactly over `ℤ`.
* `Array.prototype.sort` (stable since ES2019) with comparator
  `(a, b) => keyOf b - keyOf a` is modelled by the stable descending
  insertion sort `sortDescBy` below.
* JS `Map` iteration order is insertion order; the vector store is a list.
* JS `x || d` on numbers treats `0` as falsy; this is modelled explicitly.
-/

/-- JS whitespace (the characters of `\s` that matter for this code base). -/
def isWsChar (c : Char) : Bool :=
  c = ' ' || c = '\t' || c = '\n' || c = '\r' || c = '\x0b' || c = '\x0c'

/-- Model of JavaScript `str.split(/\s+/)`: split at maximal whitespace runs,
keeping the (possibly empty) fragments before the first run and after the
last run; the empty string yields `[[]]`. The second argument is `some acc`
while a fragment `acc` (reversed) is being accumulated, `none` while inside
a separator run whose fragment has already been emitted. -/
def splitWsF : List Char → Option (List Char) → List (List Char)
  | [], some acc => [acc.reverse]
  | [], none => [[]]
  | c :: rest, some acc =>
    if isWsChar c then acc.reverse :: splitWsF rest none
    else splitWsF rest (some (c :: acc))
  | c :: rest, none =>
    if isWsChar c then splitWsF rest none
    else splitWsF rest (some [c])

def splitWs (s : List Char) : List (List Char) := splitWsF s (some [])

/-- Wrap an integer to a 32-bit signed integer, as JS `ToInt32`. -/
def toInt32 (n : ℤ) : ℤ :=
  if n % 4294967296 < 2147483648 then n % 4294967296 else n % 4294967296 - 4294967296

/-- One step of the JS hash loop
`hash = ((hash << 5) - hash) + charCode; hash = hash & hash;`. -/
def hashStep (h : ℤ) (c : ℕ) : ℤ := toInt32 (toInt32 (h * 32) - h + c)

/-- The iterated string hash of `simpleHashEmbedding` (per word). -/
def jsHash (w : List Char) : ℤ := w.foldl (fun h c => hashStep h c.toNat) 0

/-- `Math.abs(hash) % 384`, the accumulation index of a word. -/
def hashIndex (w : List Char) : ℕ := (jsHash w).natAbs % 384

/-- JS `embedding[i] += x` on an array of fixed length (`i` in bounds). -/
def addAt (v : List ℝ) (i : ℕ) (x : ℝ) : List ℝ := v.set i (v.getD i 0 + x)

/-- JS `embedding.reduce((sum, val) => sum + val * val, 0)`. -/
def sumSq (v : List ℝ) : ℝ := v.foldl (fun s x => s + x * x) 0

/-- The dot-product loop of `calculateCosineSimilarity` (over equal-length,
already padded vectors; extra elements of the longer list are ignored). -/
def dotp : List ℝ → List ℝ → ℝ
  | a :: as, b :: bs => a * b + dotp as bs
  | _, _ => 0

/-- `VectorStore.calculateCosineSimilarity` (vectorStore.js:221-267):
pad the shorter vector with zeros, compute dot product and squared norms in
one pass, return `0` when the denominator is zero, else the quotient. -/
noncomputable def calculateCosineSimilarity (vec1 vec2 : List ℝ) : ℝ :=
  let maxLength := max vec1.length vec2.length
  let a := vec1 ++ List.replicate (maxLength - vec1.length) 0
  let b := vec2 ++ List.replicate (maxLength - vec2.length) 0
  let dotProduct := dotp a b
  let norm1 := sumSq a
  let norm2 := sumSq b
  let denominator := Real.sqrt norm1 * Real.sqrt norm2
  if denominator = 0 then 0 else dotProduct / denominator

/-- The accumulation phase of `VectorStore.simpleHashEmbedding`
(vectorStore.js:138-161): empty input is replaced by the literal
`'default text'`; words longer than two characters add `1` at their hash
index; the first 100 characters add `0.1` at `(charCode * i) % 384`. -/
noncomputable def vsAccumulated (text : List Char) : List ℝ :=
  let t := if text = [] then String.toList "default text" else text
  let words := (splitWs (t.map Char.toLower)).filter (fun w => 2 < w.length)
  let e1 := words.foldl (fun v w => addAt v (hashIndex w) 1) (List.replicate 384 (0 : ℝ))
  (t.take 100).enum.foldl (fun v ic => addAt v ((ic.2.toNat * ic.1) % 384) (1 / 10)) e1

/-- `VectorStore.simpleHashEmbedding` (vectorStore.js:136-177): the
accumulated vector, L2-normalized, or with a single `1` written at index
`0` when the accumulated magnitude is zero. -/
noncomputable def vsSimpleHashEmbedding (text : List Char) : List ℝ :=
  let magnitude := Real.sqrt (sumSq (vsAccumulated text))
  if magnitude = 0 then (vsAccumulated text).set 0 1
  else (vsAccumulated text).map (fun x => x / magnitude)

/-- The accumulation phase of `RAGPipeline.simpleHashEmbedding`
(ragPipeline.js:149-160): every whitespace token (no length filter) adds
`1` at its hash index; no character-level features. -/
noncomputable def ragAccumulated (text : List Char) : List ℝ :=
  (splitWs (text.map Char.toLower)).foldl
    (fun v w => addAt v (hashIndex w) 1) (List.replicate 384 (0 : ℝ))

/-- `RAGPipeline.simpleHashEmbedding` (ragPipeline.js:147-165): the
accumulated vector divided by its magnitude, with no zero guard. -/
noncomputable def ragSimpleHashEmbedding (text : List Char) : List ℝ :=
  (ragAccumulated text).map (fun x => x / Real.sqrt (sumSq (ragAccumulated text)))

/-- One entry of `VectorStore.vectors` (the fields search and rerank read). -/
structure StoredVector where
  documentId : List Char
  content : List Char
  typeTag : List Char
  semanticChunk : Bool
  embedding : List ℝ

/-- A search hit: the stored entry spread together with its similarity. -/
structure SearchResult where
  vec : StoredVector
  similarity : ℝ

/-- The `filters` argument of `searchWithEmbedding`; `none` models an absent
JS property. -/
structure SearchFilters where
  minSimilarity : Option ℝ := none
  topK : Option ℕ := none

/-- `filters.minSimilarity || 0.1`: JS `||` treats the number `0` as falsy. -/
noncomputable def effMinSimilarity : Option ℝ → ℝ
  | none => 1 / 10
  | some x => if x = 0 then 1 / 10 else x

/-- `filters.topK || 10`: JS `||` treats the number `0` as falsy. -/
def effTopK : Option ℕ → ℕ
  | none => 10
  | some k => if k = 0 then 10 else k

/-- `documentIds && !documentIds.includes(vector.documentId)` as a pass test. -/
def docFilterOk (documentIds : Option (List (List Char))) (d : List Char) : Bool :=
  match documentIds with
  | none => true
  | some ids => ids.contains d

/-- The scan loop of `searchWithEmbedding` (vectorStore.js:187-203): walk the
store in insertion order, skip entries outside the document filter, keep
entries whose cosine similarity reaches the threshold, attaching it. -/
noncomputable def searchCandidates (vectors : List StoredVector) (queryEmbedding : List ℝ)
    (documentIds : Option (List (List Char))) (minSimilarity : ℝ) : List SearchResult :=
  vectors.filterMap (fun v =>
    if docFilterOk documentIds v.documentId then
      let similarity := calculateCosineSimilarity queryEmbedding v.embedding
      if minSimilarity ≤ similarity then some ⟨v, similarity⟩ else none
    else none)

/-- Insert an element that precedes `l` in arrival order into a
descending-sorted list, after every strictly larger key and before ties. -/
noncomputable def insertDescBy {α : Type} (key : α → ℝ) (x : α) : List α → List α
  | [] => [x]
  | y :: ys => if key x < key y then y :: insertDescBy key x ys else x :: y :: ys

/-- Model of `Array.prototype.sort((a, b) => key b - key a)`: the unique
stable descending reordering (ES2019 requires sort stability). -/
noncomputable def sortDescBy {α : Type} (key : α → ℝ) : List α → List α
  | [] => []
  | a :: l => insertDescBy key a (sortDescBy key l)

/-- `VectorStore.searchWithEmbedding` (vectorStore.js:179-211):
`results.sort((a, b) => b.similarity - a.similarity).slice(0, topK)` over the
threshold-filtered scan, with the `||` defaults `0.1` and `10`. -/
noncomputable def searchWithEmbedding (vectors : List StoredVector) (queryEmbedding : List ℝ)
    (documentIds : Option (List (List Char))) (filters : SearchFilters) : List SearchResult :=
  (sortDescBy (fun r => r.similarity)
      (searchCandidates vectors queryEmbedding documentIds
        (effMinSimilarity filters.minSimilarity))).take (effTopK filters.topK)

/-- The stop-word set of `RAGPipeline.extractKeywords` (ragPipeline.js:220). -/
def stopWords : List (List Char) :=
  ["the", "a", "an", "and", "or", "but", "in", "on", "at", "to", "for", "of", "with",
   "by", "is", "are", "was", "were", "be", "been", "have", "has", "had", "do", "does",
   "did", "will", "would", "could", "should", "may", "might", "can", "this", "that",
   "these", "those"].map String.toList

/-- `RAGPipeline.extractKeywords` (ragPipeline.js:218-226). -/
def extractKeywords (query : List Char) : List (List Char) :=
  ((splitWs (query.map Char.toLower)).filter
    (fun w => 2 < w.length && !(stopWords.contains w))).take 10

/-- The ordered intent rule list of `RAGPipeline.classifyIntent`
(ragPipeline.js:182-202); each regex is an alternation of literal cues. -/
def intentRules : List (String × List (List Char)) :=
  [("factual", ["what is", "define", "explain", "tell me about", "describe"].map String.toList),
   ("comparison", ["compare", "versus", "vs", "difference between", "contrast"].map String.toList),
   ("procedural", ["how to", "steps", "process", "procedure", "method"].map String.toList),
   ("analytical", ["analyze", "analysis", "insights", "trends", "patterns"].map String.toList),
   ("numerical", ["statistics", "numbers", "data", "metrics", "calculate", "count"].map String.toList),
   ("visual", ["chart", "graph", "table", "image", "figure", "diagram", "plot"].map String.toList),
   ("temporal", ["when", "date", "time", "schedule", "timeline", "history"].map String.toList),
   ("location", ["where", "location", "place", "address", "site"].map String.toList),
   ("causal", ["why", "cause", "effect", "because", "reason"].map String.toList),
   ("list", ["list", "enumerate", "examples", "instances", "items"].map String.toList)]

/-- Contiguous-substring test (the semantics of matching a literal inside a
regex alternation). -/
def isSubstringOf (needle : List Char) : List Char → Bool
  | [] => needle.isEmpty
  | c :: rest => needle.isPrefixOf (c :: rest) || isSubstringOf needle rest

/-- A case-insensitive regex alternation of literal cues matches iff one cue
is a substring of the lowercased query. -/
def matchesIntent (patterns : List (List Char)) (query : List Char) : Bool :=
  patterns.any (fun p => isSubstringOf p (query.map Char.toLower))

/-- `RAGPipeline.classifyIntent`: first matching rule wins, else the default. -/
def classifyIntent (query : List Char) : String :=
  match intentRules.find? (fun rule => matchesIntent rule.2 query) with
  | some rule => rule.1
  | none => "information_request"

/-- The lowercased whitespace-token set of a text (a JS `Set` keeps first
occurrences, i.e. `dedup`). -/
def wordSet (t : List Char) : List (List Char) := (splitWs (t.map Char.toLower)).dedup

/-- `RAGPipeline.calculateChunkRelevance` (ragPipeline.js:242-260). -/
noncomputable def calculateChunkRelevance (query : List Char) (chunk : SearchResult) : ℝ :=
  let queryWords := wordSet query
  let chunkWords := wordSet chunk.vec.content
  let wordOverlapScore :=
    ((queryWords.filter (fun w => chunkWords.contains w)).length : ℝ) / queryWords.length
  let vectorScore := chunk.similarity
  let lengthScore := min ((chunk.vec.content.length : ℝ) / 500) 1
  let metadataBonus : ℝ := if chunk.vec.semanticChunk then 1 / 10 else 0
  wordOverlapScore * (2 / 5) + vectorScore * (2 / 5) + lengthScore * (1 / 10) + metadataBonus

/-- `RAGPipeline.rerank` (ragPipeline.js:233-240): a stable in-place sort by
descending composite relevance. -/
noncomputable def rerank (query : List Char) (chunks : List SearchResult) : List SearchResult :=
  sortDescBy (calculateChunkRelevance query) chunks

/-- `RAGPipeline.calculateFaithfulness` (ragPipeline.js:440-447). -/
noncomputable def calculateFaithfulness (response : List Char) (sources : List SearchResult) : ℝ :=
  let responseWords := wordSet response
  let sourceWords := (sources.map (fun s => splitWs (s.vec.content.map Char.toLower))).flatten
  ((responseWords.filter (fun w => sourceWords.contains w)).length : ℝ) /
    (max responseWords.length 1 : ℕ)

/-- `RAGPipeline.calculateAnswerRelevancy` (ragPipeline.js:449-456). -/
noncomputable def calculateAnswerRelevancy (query response : List Char) : ℝ :=
  let queryWords := wordSet query
  let responseWords := wordSet response
  ((queryWords.filter (fun w => responseWords.contains w)).length : ℝ) /
    (max queryWords.length 1 : ℕ)

/-- `RAGPipeline.calculateContextRecall` (ragPipeline.js:458-465). -/
noncomputable def calculateContextRecall (query : List Char) (sources : List SearchResult) : ℝ :=
  let queryWords := wordSet query
  let sourceWords := (sources.map (fun s => splitWs (s.vec.content.map Char.toLower))).flatten
  ((queryWords.filter (fun w => sourceWords.contains w)).length : ℝ) /
    (max queryWords.length 1 : ℕ)

/-- `RAGPipeline.calculateContextPrecision` (ragPipeline.js:467-477). -/
noncomputable def calculateContextPrecision (query : List Char) (sources : List SearchResult) : ℝ :=
  let queryWords := wordSet query
  let relevantSources := sources.filter (fun s =>
    decide (0 < ((queryWords.filter
      (fun w => (wordSet s.vec.content).contains w)).length)))
  ((relevantSources.length : ℝ)) / (max sources.length 1 : ℕ)

/-- The metrics record returned by `calculateRAGASMetrics`. -/
structure RAGMetrics where
  faithfulness : ℝ
  answerRelevancy : ℝ
  contextRecall : ℝ
  contextPrecision : ℝ
  overallScore : ℝ

/-- `RAGPipeline.calculateRAGASMetrics` (ragPipeline.js:413-438), successful
branch (the `catch` branch substitutes fixed neutral defaults and is
unreachable in this total model). -/
noncomputable def calculateRAGASMetrics (query response : List Char)
    (sources : List SearchResult) : RAGMetrics :=
  let faithfulness := calculateFaithfulness response sources
  let answerRelevancy := calculateAnswerRelevancy query response
  let contextRecall := calculateContextRecall query sources
  let contextPrecision := calculateContextPrecision query sources
  ⟨faithfulness, answerRelevancy, contextRecall, contextPrecision,
    (faithfulness + answerRelevancy + contextRecall + contextPrecision) / 4⟩

/-- JS `String.prototype.trim`. -/
def trimWs (l : List Char) : List Char :=
  ((l.dropWhile isWsChar).reverse.dropWhile isWsChar).reverse

/-- JS `context.split('\n\n')` (second argument accumulates the current
fragment). -/
def splitNN : List Char → List Char → List (List Char)
  | [], acc => [acc.reverse]
  | '\n' :: '\n' :: rest, acc => acc.reverse :: splitNN rest []
  | c :: rest, acc => splitNN rest (c :: acc)

/-- The per-chunk lexical score of `generateSimpleResponse`
(ragPipeline.js:359-368): shared distinct tokens over distinct query tokens. -/
noncomputable def chunkOverlapScore (query chunk : List Char) : ℝ :=
  (((wordSet query).filter (fun w => (wordSet chunk).contains w)).length : ℝ) /
    (wordSet query).length

/-- JS `bestChunk.match(/\d+(?:\.\d+)?/g)`: all digit runs with an optional
single fractional part, scanned left to right. The fuel (always instantiated
at more than the input length) only bounds the recursion. -/
def extractNumsAux : ℕ → List Char → List (List Char)
  | 0, _ => []
  | _ + 1, [] => []
  | fuel + 1, c :: rest =>
    if c.isDigit then
      let ds := (c :: rest).takeWhile Char.isDigit
      let r1 := (c :: rest).dropWhile Char.isDigit
      match r1 with
      | '.' :: d :: r2 =>
        if d.isDigit then
          (ds ++ '.' :: (d :: r2).takeWhile Char.isDigit) ::
            extractNumsAux fuel ((d :: r2).dropWhile Char.isDigit)
        else ds :: extractNumsAux fuel r1
      | _ => ds :: extractNumsAux fuel r1
    else extractNumsAux fuel rest

def extractNums (l : List Char) : List (List Char) := extractNumsAux (l.length + 1) l

/-- JS `array.join(', ')`. -/
def joinComma (l : List (List Char)) : List Char :=
  (l.intersperse (String.toList ", ")).flatten

/-- `substring(0, n)` followed by the conditional ellipsis marker. -/
def clipWithEllipsis (n : ℕ) (l : List Char) : List Char :=
  l.take n ++ (if n < l.length then String.toList "..." else [])

/-- `RAGPipeline.generateSimpleResponse` (ragPipeline.js:346-391): the
extractive, intent-templated fallback answer. -/
noncomputable def generateSimpleResponse (query context : List Char) (intent : String) :
    List Char :=
  let contextChunks := (splitNN context []).filter (fun c => 0 < (trimWs c).length)
  match contextChunks with
  | [] =>
    String.toList "I don\x27t have enough information to answer your question: \"" ++
      query ++ String.toList "\". Please try uploading relevant documents first."
  | c0 :: _ =>
    let bestChunk := (contextChunks.foldl
      (fun acc c =>
        if acc.2 < chunkOverlapScore query c then (c, chunkOverlapScore query c) else acc)
      (c0, 0)).1
    if intent = "factual" then
      String.toList "Based on the document content: " ++ clipWithEllipsis 300 bestChunk
    else if intent = "comparison" then
      String.toList "To compare the requested information, here are the relevant details from the documents: " ++
        clipWithEllipsis 300 bestChunk
    else if intent = "procedural" then
      String.toList "Here are the steps or process details: " ++ clipWithEllipsis 300 bestChunk
    else if intent = "numerical" then
      match extractNums bestChunk with
      | [] => String.toList "Here\x27s the relevant information: " ++ clipWithEllipsis 300 bestChunk
      | n :: ns =>
        String.toList "The numerical data from the documents includes: " ++
          joinComma ((n :: ns).take 5) ++ String.toList ". Full context: " ++
          clipWithEllipsis 200 bestChunk
    else
      String.toList "Here\x27s what I found in the documents regarding your question: " ++
        clipWithEllipsis 300 bestChunk

/-- `RAGPipeline.buildContext` (ragPipeline.js:262-264): `join('\n\n')`. -/
def buildContext (chunks : List SearchResult) : List Char :=
  ((chunks.map (fun c => c.vec.content)).intersperse (String.toList "\n\n")).flatten

/-- `RAGPipeline.calculateRelevanceScore` (ragPipeline.js:401-411). -/
noncomputable def calculateRelevanceScore (chunks : List SearchResult) : ℝ :=
  if chunks.length = 0 then 0
  else
    let avgSimilarity := (chunks.map (fun c => c.similarity)).sum / chunks.length
    let diversityBonus := min ((chunks.length : ℝ) / 3) (1 / 5)
    min (avgSimilarity + diversityBonus) 1

/-- One element of the `sources` array of a query result. -/
structure SourceInfo where
  content : List Char
  similarity : ℝ
  documentId : List Char
  typeTag : List Char
  semanticChunk : Bool

/-- The structured result of `RAGPipeline.query`. -/
structure QueryResult where
  answer : List Char
  sources : List SourceInfo
  relevanceScore : ℝ
  context : List Char
  queryIntent : String
  metrics : RAGMetrics

/-- The templated no-evidence answer of `RAGPipeline.query`
(ragPipeline.js:65-74). -/
def noChunksAnswer (query : List Char) : List Char :=
  String.toList "I couldn\x27t find specific information to answer your question: \"" ++
    query ++
    String.toList "\". This might be because:\n\n1. The document content doesn\x27t contain information related to your query\n2. The similarity threshold is too high\n3. There might be an issue with the document processing\n\nPlease try:\n- Rephrasing your question\n- Asking about specific topics mentioned in the document\n- Uploading additional relevant documents"

/-- Step 3 of `RAGPipeline.query` (ragPipeline.js:46-54): the retrieval call,
with the pipeline defaults `minSimilarity: 0.1` (no environment override in
this deterministic model) and `topK: this.topK = 5` merged under the
caller-supplied `filters` by object spread. -/
noncomputable def retrievedChunks (vectors : List StoredVector) (query : List Char)
    (documentIds : Option (List (List Char))) (filters : SearchFilters) : List SearchResult :=
  searchWithEmbedding vectors (ragSimpleHashEmbedding query) documentIds
    ⟨some (filters.minSimilarity.getD (1 / 10)), some (filters.topK.getD 5)⟩

/-- `RAGPipeline.query` (ragPipeline.js:35-121) in its deterministic
configuration (no external embedding or generation provider): intent
classification, hash query embedding, retrieval, then either the structured
no-evidence result (ragPipeline.js:57-87) or rerank / truncate to
`this.topK = 5` / extractive generation / scoring. -/
noncomputable def ragQuery (vectors : List StoredVector) (query : List Char)
    (documentIds : Option (List (List Char))) (filters : SearchFilters) : QueryResult :=
  let intent := classifyIntent query
  let relevantChunks := retrievedChunks vectors query documentIds filters
  if relevantChunks.length = 0 then
    { answer := noChunksAnswer query
      sources := []
      relevanceScore := 0
      context := []
      queryIntent := "information_request"
      metrics := ⟨0, 0, 0, 0, 0⟩ }
  else
    let rerankedChunks := rerank query relevantChunks
    let selectedChunks := rerankedChunks.take 5
    let context := buildContext selectedChunks
    let response := generateSimpleResponse query context intent
    { answer := response
      sources := selectedChunks.map (fun c =>
        ⟨c.vec.content, c.similarity, c.vec.documentId, c.vec.typeTag, c.vec.semanticChunk⟩)
      relevanceScore := calculateRelevanceScore selectedChunks
      context := context
      queryIntent := intent
      metrics := calculateRAGASMetrics query response selectedChunks }

/-! ## Properties of the stable descending sort -/

theorem insertDescBy_perm {α : Type} (key : α → ℝ) (x : α) (l : List α) :
    (insertDescBy key x l).Perm (x :: l) := by
  induction l with
  | nil => simp [insertDescBy]
  | cons y ys ih =>
    simp only [insertDescBy]
    by_cases h : key x < key y
    · simp only [if_pos h]
      exact (ih.cons y).trans (List.Perm.swap x y ys)
    · simp [if_neg h]

theorem sortDescBy_perm {α : Type} (key : α → ℝ) (l : List α) :
    (sortDescBy key l).Perm l := by
  induction l with
  | nil => simp [sortDescBy]
  | cons a l ih => exact (insertDescBy_perm key a _).trans (ih.cons a)

theorem insertDescBy_pairwise {α : Type} (key : α → ℝ) (x : α) (l : List α)
    (h : l.Pairwise (fun a b => key b ≤ key a)) :
    (insertDescBy key x l).Pairwise (fun a b => key b ≤ key a) := by
  induction l with
  | nil => simp [insertDescBy]
  | cons y ys ih =>
    rw [List.pairwise_cons] at h
    simp only [insertDescBy]
    by_cases hxy : key x < key y
    · rw [if_pos hxy, List.pairwise_cons]
      refine ⟨fun b hb => ?_, ih h.2⟩
      rcases List.mem_cons.mp (((insertDescBy_perm key x ys).mem_iff).mp hb) with hb | hb
      · subst hb; exact hxy.le
      · exact h.1 b hb
    · rw [if_neg hxy, List.pairwise_cons]
      push_neg at hxy
      refine ⟨fun b hb => ?_, List.pairwise_cons.mpr h⟩
      rcases List.mem_cons.mp hb with hb | hb
      · subst hb; exact hxy
      · exact (h.1 b hb).trans hxy

theorem sortDescBy_pairwise {α : Type} (key : α → ℝ) (l : List α) :
    (sortDescBy key l).Pairwise (fun a b => key b ≤ key a) := by
  induction l with
  | nil => simp [sortDescBy]
  | cons a l ih => exact insertDescBy_pairwise key a _ ih

theorem insertDescBy_filter_eq {α : Type} (key : α → ℝ) (x : α) (l : List α) (s : ℝ)
    (hx : key x = s) :
    (insertDescBy key x l).filter (fun a => decide (key a = s)) =
      x :: l.filter (fun a => decide (key a = s)) := by
  induction l with
  | nil => simp [insertDescBy, hx]
  | cons y ys ih =>
    simp only [insertDescBy]
    by_cases hxy : key x < key y
    · have hy : ¬ key y = s := fun e => absurd (hx ▸ e ▸ hxy) (lt_irrefl _)
      rw [if_pos hxy, List.filter_cons, List.filter_cons]
      simp [hy, ih]
    · rw [if_neg hxy, List.filter_cons]
      simp [hx]

theorem insertDescBy_filter_ne {α : Type} (key : α → ℝ) (x : α) (l : List α) (s : ℝ)
    (hx : ¬ key x = s) :
    (insertDescBy key x l).filter (fun a => decide (key a = s)) =
      l.filter (fun a => decide (key a = s)) := by
  induction l with
  | nil => simp [insertDescBy, hx]
  | cons y ys ih =>
    simp only [insertDescBy]
    by_cases hxy : key x < key y
    · rw [if_pos hxy, List.filter_cons, List.filter_cons]
      by_cases hy : key y = s
      · simp [hy, ih]
      · simp [hy, ih]
    · rw [if_neg hxy, List.filter_cons, List.filter_cons]
      simp [hx]

theorem sortDescBy_filter {α : Type} (key : α → ℝ) (l : List α) (s : ℝ) :
    (sortDescBy key l).filter (fun a => decide (key a = s)) =
      l.filter (fun a => decide (key a = s)) := by
  induction l with
  | nil => rfl
  | cons a l ih =>
    by_cases h : key a = s
    · rw [sortDescBy, insertDescBy_filter_eq key a _ s h, ih, List.filter_cons]
      simp [h]
    · rw [sortDescBy, insertDescBy_filter_ne key a _ s h, ih, List.filter_cons]
      simp [h]

/-! ## C1: the search contract -/

theorem effMinSimilarity_of_ne {x : ℝ} (h : x ≠ 0) : effMinSimilarity (some x) = x := by
  simp [effMinSimilarity, h]

theorem effTopK_of_ne {k : ℕ} (h : k ≠ 0) : effTopK (some k) = k := by
  simp [effTopK, h]

theorem mem_searchCandidates {vectors : List StoredVector} {queryEmbedding : List ℝ}
    {documentIds : Option (List (List Char))} {minSimilarity : ℝ} {r : SearchResult}
    (h : r ∈ searchCandidates vectors queryEmbedding documentIds minSimilarity) :
    r.vec ∈ vectors ∧ minSimilarity ≤ r.similarity ∧
      r.similarity = calculateCosineSimilarity queryEmbedding r.vec.embedding ∧
      docFilterOk documentIds r.vec.documentId = true := by
  simp only [searchCandidates, List.mem_filterMap] at h
  obtain ⟨v, hv, hf⟩ := h
  split_ifs at hf with h1 h2
  · injection hf with hf
    subst hf
    exact ⟨hv, h2, rfl, h1⟩

/-- C1 (amended): with a nonzero supplied `minSimilarity` and a nonzero
supplied `topK` (a zero or absent value falls back to the `||` defaults
`0.1` and `10`), search returns exactly the stored passages whose cosine
similarity to the query embedding reaches `minSimilarity` and whose document
id lies in the optional filter set, sorted descending by similarity with
ties kept in insertion order, truncated to at most `topK` entries. -/
theorem C1_searchWithEmbedding_spec (vectors : List StoredVector) (queryEmbedding : List ℝ)
    (documentIds : Option (List (List Char))) (minSimilarity : ℝ) (topK : ℕ)
    (hmin : minSimilarity ≠ 0) (hk : topK ≠ 0) :
    (∀ r ∈ searchWithEmbedding vectors queryEmbedding documentIds
        ⟨some minSimilarity, some topK⟩,
      r.vec ∈ vectors ∧ minSimilarity ≤ r.similarity ∧
        r.similarity = calculateCosineSimilarity queryEmbedding r.vec.embedding ∧
        ∀ ids, documentIds = some ids → r.vec.documentId ∈ ids) ∧
    (searchWithEmbedding vectors queryEmbedding documentIds
        ⟨some minSimilarity, some topK⟩).Pairwise
      (fun a b => b.similarity ≤ a.similarity) ∧
    (∀ s : ℝ, List.IsPrefix
      ((searchWithEmbedding vectors queryEmbedding documentIds
          ⟨some minSimilarity, some topK⟩).filter (fun r => decide (r.similarity = s)))
      ((searchCandidates vectors queryEmbedding documentIds minSimilarity).filter
          (fun r => decide (r.similarity = s)))) ∧
    (searchWithEmbedding vectors queryEmbedding documentIds
        ⟨some minSimilarity, some topK⟩).length =
      min (searchCandidates vectors queryEmbedding documentIds minSimilarity).length topK ∧
    ((searchCandidates vectors queryEmbedding documentIds minSimilarity).length ≤ topK →
      (searchWithEmbedding vectors queryEmbedding documentIds
        ⟨some minSimilarity, some topK⟩).Perm
        (searchCandidates vectors queryEmbedding documentIds minSimilarity)) := by
  have hR : searchWithEmbedding vectors queryEmbedding documentIds
      ⟨some minSimilarity, some topK⟩ =
      (sortDescBy (fun r => r.similarity)
        (searchCandidates vectors queryEmbedding documentIds minSimilarity)).take topK := by
    rw [searchWithEmbedding]
    rw [show (SearchFilters.mk (some minSimilarity) (some topK)).minSimilarity =
        some minSimilarity from rfl,
      show (SearchFilters.mk (some minSimilarity) (some topK)).topK = some topK from rfl,
      effMinSimilarity_of_ne hmin, effTopK_of_ne hk]
  rw [hR]
  set C := searchCandidates vectors queryEmbedding documentIds minSimilarity with hC
  have hperm := sortDescBy_perm (fun r : SearchResult => r.similarity) C
  refine ⟨?_, ?_, ?_, ?_, ?_⟩
  · intro r hr
    have hrC : r ∈ C := hperm.mem_iff.mp ((List.take_sublist _ _).subset hr)
    obtain ⟨h1, h2, h3, h4⟩ := mem_searchCandidates hrC
    refine ⟨h1, h2, h3, fun ids hids => ?_⟩
    rw [hids] at h4
    simpa [docFilterOk] using h4
  · exact (sortDescBy_pairwise (fun r : SearchResult => r.similarity) C).sublist
      (List.take_sublist _ _)
  · intro s
    have h1 : List.IsPrefix
        (((sortDescBy (fun r : SearchResult => r.similarity) C).take topK).filter
          (fun r => decide (r.similarity = s)))
        ((sortDescBy (fun r : SearchResult => r.similarity) C).filter
          (fun r => decide (r.similarity = s))) :=
      (List.take_prefix _ _).filter _
    rwa [sortDescBy_filter (fun r : SearchResult => r.similarity) C s] at h1
  · rw [List.length_take, hperm.length_eq, Nat.min_comm]
  · intro hlen
    rw [List.take_of_length_le (by rw [hperm.length_eq]; exact hlen)]
    exact hperm

theorem C1_searchWithEmbedding_spec_witness :
    (searchWithEmbedding [] [] none ⟨some (1 / 2), some 3⟩).length =
      min (searchCandidates [] [] none (1 / 2)).length 3 :=
  (C1_searchWithEmbedding_spec [] [] none (1 / 2) 3 (by norm_num) (by norm_num)).2.2.2.1

theorem cosineSimilarity_single_one : calculateCosineSimilarity [(1 : ℝ)] [1] = 1 := by
  simp only [calculateCosineSimilarity]
  norm_num [sumSq, dotp, Real.sqrt_one]

/-- The store entry used by concrete counterexamples. -/
def cexVector : StoredVector :=
  ⟨String.toList "d1", String.toList "c", String.toList "text", false, [1]⟩

/-- C1 as frozen is false: with supplied `topK = 0` the claim demands at most
`0` results, but the search returns one (the JS `||` default replaces `0`
by `10`). -/
theorem C1_searchWithEmbedding_cex :
    (searchWithEmbedding [cexVector] [1] none ⟨some (1 / 2), some 0⟩).length = 1 := by
  have hcand : searchCandidates [cexVector] [1] none (1 / 2) = [⟨cexVector, 1⟩] := by
    simp only [searchCandidates, List.filterMap, docFilterOk, cexVector]
    norm_num [cosineSimilarity_single_one]
  have heff : effMinSimilarity (some (1 / 2 : ℝ)) = 1 / 2 := by
    norm_num [effMinSimilarity]
  simp only [searchWithEmbedding, heff, effTopK]
  rw [show (searchCandidates [cexVector] [1] none (1 / 2)) =
    [⟨cexVector, 1⟩] from hcand]
  simp [sortDescBy, insertDescBy]

/-! ## C2: cosine similarity is total, zero-safe and bounded -/

theorem foldl_add_sq (v : List ℝ) (c : ℝ) :
    v.foldl (fun s x => s + x * x) c = c + (v.map (fun x => x * x)).sum := by
  induction v generalizing c with
  | nil => simp
  | cons a l ih => simp [ih, add_assoc]

theorem sumSq_eq_sum_map (v : List ℝ) : sumSq v = (v.map (fun x => x * x)).sum := by
  rw [sumSq, foldl_add_sq, zero_add]

theorem sumSq_nonneg (v : List ℝ) : 0 ≤ sumSq v := by
  rw [sumSq_eq_sum_map]
  refine List.sum_nonneg fun x hx => ?_
  obtain ⟨y, _, rfl⟩ := List.mem_map.mp hx
  exact mul_self_nonneg y

theorem sumSq_cons (x : ℝ) (v : List ℝ) : sumSq (x :: v) = x * x + sumSq v := by
  rw [sumSq_eq_sum_map, sumSq_eq_sum_map, List.map_cons, List.sum_cons]

theorem sumSq_append (a b : List ℝ) : sumSq (a ++ b) = sumSq a + sumSq b := by
  rw [sumSq_eq_sum_map, sumSq_eq_sum_map, sumSq_eq_sum_map, List.map_append, List.sum_append]

theorem sumSq_replicate_zero (n : ℕ) : sumSq (List.replicate n (0 : ℝ)) = 0 := by
  induction n with
  | zero => rfl
  | succ m ih => rw [List.replicate_succ, sumSq_cons, ih]; ring

/-- Cauchy–Schwarz for the truncating dot product of the similarity loop. -/
theorem dotp_sq_le (a : List ℝ) : ∀ b : List ℝ, (dotp a b) ^ 2 ≤ sumSq a * sumSq b := by
  induction a with
  | nil =>
    intro b
    have h : dotp [] b = 0 := by cases b <;> rfl
    rw [h]
    simpa using mul_nonneg (sumSq_nonneg []) (sumSq_nonneg b)
  | cons x as ih =>
    intro b
    cases b with
    | nil =>
      have h : dotp (x :: as) [] = 0 := rfl
      rw [h]
      simpa using mul_nonneg (sumSq_nonneg (x :: as)) (sumSq_nonneg [])
    | cons y bs =>
      have hp := sumSq_nonneg as
      have hq := sumSq_nonneg bs
      have ihd := ih bs
      have hd : dotp (x :: as) (y :: bs) = x * y + dotp as bs := rfl
      rw [hd, sumSq_cons, sumSq_cons]
      have h1 : (2 * x * y * dotp as bs) ^ 2 ≤
          (x ^ 2 * sumSq bs + y ^ 2 * sumSq as) ^ 2 := by
        nlinarith [ihd, sq_nonneg (x ^ 2 * sumSq bs - y ^ 2 * sumSq as), sq_nonneg (x * y),
          mul_nonneg hp hq]
      have hB : 0 ≤ x ^ 2 * sumSq bs + y ^ 2 * sumSq as :=
        add_nonneg (mul_nonneg (sq_nonneg x) hq) (mul_nonneg (sq_nonneg y) hp)
      have h2 : 2 * x * y * dotp as bs ≤ x ^ 2 * sumSq bs + y ^ 2 * sumSq as := by
        nlinarith [h1, hB]
      nlinarith [ihd, h2]

/-- C2: for all vectors of any (possibly unequal) lengths the similarity is a
total function into `[-1, 1]`; the shorter vector is zero-padded to the
longer length before the one-pass loop (padding both inputs is a no-op); and
a vector of zero norm forces the zero denominator guard, hence result `0`. -/
theorem C2_cosineSimilarity_bounds (vec1 vec2 : List ℝ) :
    -1 ≤ calculateCosineSimilarity vec1 vec2 ∧
    calculateCosineSimilarity vec1 vec2 ≤ 1 ∧
    (sumSq vec1 = 0 → calculateCosineSimilarity vec1 vec2 = 0) ∧
    (sumSq vec2 = 0 → calculateCosineSimilarity vec1 vec2 = 0) ∧
    calculateCosineSimilarity vec1 vec2 =
      calculateCosineSimilarity
        (vec1 ++ List.replicate (max vec1.length vec2.length - vec1.length) 0)
        (vec2 ++ List.replicate (max vec1.length vec2.length - vec2.length) 0) := by
  have hlenA : (vec1 ++ List.replicate (max vec1.length vec2.length - vec1.length)
      (0 : ℝ)).length = max vec1.length vec2.length := by
    simp only [List.length_append, List.length_replicate]
    omega
  have hlenB : (vec2 ++ List.replicate (max vec1.length vec2.length - vec2.length)
      (0 : ℝ)).length = max vec1.length vec2.length := by
    simp only [List.length_append, List.length_replicate]
    omega
  have hpad : calculateCosineSimilarity vec1 vec2 =
      calculateCosineSimilarity
        (vec1 ++ List.replicate (max vec1.length vec2.length - vec1.length) 0)
        (vec2 ++ List.replicate (max vec1.length vec2.length - vec2.length) 0) := by
    simp only [calculateCosineSimilarity, hlenA, hlenB, max_self, Nat.sub_self,
      List.replicate_zero, List.append_nil]
  have hmain : -1 ≤ calculateCosineSimilarity vec1 vec2 ∧
      calculateCosineSimilarity vec1 vec2 ≤ 1 ∧
      (sumSq vec1 = 0 → calculateCosineSimilarity vec1 vec2 = 0) ∧
      (sumSq vec2 = 0 → calculateCosineSimilarity vec1 vec2 = 0) := ?_
  · exact ⟨hmain.1, hmain.2.1, hmain.2.2.1, hmain.2.2.2, hpad⟩
  simp only [calculateCosineSimilarity]
  by_cases hden : Real.sqrt (sumSq (vec1 ++
        List.replicate (max vec1.length vec2.length - vec1.length) 0)) *
      Real.sqrt (sumSq (vec2 ++
        List.replicate (max vec1.length vec2.length - vec2.length) 0)) = 0
  · rw [if_pos hden]
    norm_num
  · rw [if_neg hden]
    have h1 := sumSq_nonneg (vec1 ++
      List.replicate (max vec1.length vec2.length - vec1.length) 0)
    have h2 := sumSq_nonneg (vec2 ++
      List.replicate (max vec1.length vec2.length - vec2.length) 0)
    have hdpos : 0 < Real.sqrt (sumSq (vec1 ++
          List.replicate (max vec1.length vec2.length - vec1.length) 0)) *
        Real.sqrt (sumSq (vec2 ++
          List.replicate (max vec1.length vec2.length - vec2.length) 0)) :=
      lt_of_le_of_ne (mul_nonneg (Real.sqrt_nonneg _) (Real.sqrt_nonneg _)) (Ne.symm hden)
    have hsq : (dotp (vec1 ++ List.replicate (max vec1.length vec2.length - vec1.length) 0)
          (vec2 ++ List.replicate (max vec1.length vec2.length - vec2.length) 0)) ^ 2 ≤
        (Real.sqrt (sumSq (vec1 ++
            List.replicate (max vec1.length vec2.length - vec1.length) 0)) *
          Real.sqrt (sumSq (vec2 ++
            List.replicate (max vec1.length vec2.length - vec2.length) 0))) ^ 2 := by
      rw [mul_pow, Real.sq_sqrt h1, Real.sq_sqrt h2]
      exact dotp_sq_le _ _
    refine ⟨?_, ?_, ?_, ?_⟩
    · rw [le_div_iff₀ hdpos]
      nlinarith [hsq, hdpos]
    · rw [div_le_one hdpos]
      nlinarith [hsq, hdpos]
    · intro h0
      exfalso
      apply hden
      rw [sumSq_append, h0, sumSq_replicate_zero, add_zero, Real.sqrt_zero, zero_mul]
    · intro h0
      exfalso
      apply hden
      rw [sumSq_append (vec2) _, h0, sumSq_replicate_zero, add_zero, Real.sqrt_zero, mul_zero]

theorem C2_cosineSimilarity_bounds_witness :
    calculateCosineSimilarity [(0 : ℝ)] [1] = 0 :=
  (C2_cosineSimilarity_bounds [(0 : ℝ)] [1]).2.2.1 (by norm_num [sumSq])

/-! ## C4: the hash embedding is pure and deterministic -/

/-- C4: both hash-embedding fallbacks are pure functions of the input text
alone (the JS methods read no instance, global, clock or random state, which
is what lets them be modelled as plain functions); hence two calls on the
identical text produce identical vectors, element for element. -/
theorem C4_hashEmbedding_deterministic (t1 t2 : List Char) (h : t1 = t2) :
    vsSimpleHashEmbedding t1 = vsSimpleHashEmbedding t2 ∧
    ragSimpleHashEmbedding t1 = ragSimpleHashEmbedding t2 := by
  subst h
  exact ⟨rfl, rfl⟩

theorem C4_hashEmbedding_deterministic_witness :
    vsSimpleHashEmbedding (String.toList "hello world") =
      vsSimpleHashEmbedding (String.toList "hello world") ∧
    ragSimpleHashEmbedding (String.toList "hello world") =
      ragSimpleHashEmbedding (String.toList "hello world") :=
  C4_hashEmbedding_deterministic _ _ rfl

/-! ## C8: intent classification -/

theorem find?_first_match {α : Type} (p : α → Bool) (l : List α) :
    (∃ pre x post, l = pre ++ x :: post ∧ p x = true ∧ (∀ y ∈ pre, p y = false) ∧
      l.find? p = some x) ∨
    ((∀ x ∈ l, p x = false) ∧ l.find? p = none) := by
  induction l with
  | nil => exact Or.inr ⟨by simp, rfl⟩
  | cons a l ih =>
    cases hpa : p a with
    | true =>
      refine Or.inl ⟨[], a, l, rfl, hpa, by simp, ?_⟩
      rw [List.find?_cons_of_pos _ hpa]
    | false =>
      rcases ih with ⟨pre, x, post, heq, hx, hpre, hfind⟩ | ⟨hall, hfind⟩
      · refine Or.inl ⟨a :: pre, x, post, by rw [heq, List.cons_append], hx, ?_, ?_⟩
        · intro y hy
          rcases List.mem_cons.mp hy with rfl | hy
          · exact hpa
          · exact hpre y hy
        · rw [List.find?_cons_of_neg _ (by simp [hpa]), hfind]
      · refine Or.inr ⟨?_, ?_⟩
        · intro x hx
          rcases List.mem_cons.mp hx with rfl | hx
          · exact hpa
          · exact hall x hx
        · rw [List.find?_cons_of_neg _ (by simp [hpa]), hfind]

/-- C8 (amended): intent classification walks the fixed rule list in its
stated priority order and returns the label of the first matching rule,
defaulting to `information_request` when none matches; on the scenario query
"What was the revenue?" no cue phrase occurs (in particular none of the
factual cues "what is", "define", "explain", "tell me about", "describe"),
so the classified intent is `information_request`, not `factual`. -/
theorem C8_classifyIntent_spec :
    (∀ q : List Char,
      (∃ pre rule post, intentRules = pre ++ rule :: post ∧
        matchesIntent rule.2 q = true ∧
        (∀ r ∈ pre, matchesIntent r.2 q = false) ∧
        classifyIntent q = rule.1) ∨
      ((∀ r ∈ intentRules, matchesIntent r.2 q = false) ∧
        classifyIntent q = "information_request")) ∧
    classifyIntent (String.toList "What was the revenue?") = "information_request" := by
  constructor
  · intro q
    rcases find?_first_match (fun rule => matchesIntent rule.2 q) intentRules with
      ⟨pre, x, post, heq, hx, hpre, hfind⟩ | ⟨hall, hfind⟩
    · exact Or.inl ⟨pre, x, post, heq, hx, hpre, by rw [classifyIntent, hfind]⟩
    · exact Or.inr ⟨hall, by rw [classifyIntent, hfind]⟩
  · decide

/-- C8 as frozen is false at its own scenario input: the code classifies
"What was the revenue?" as `information_request`, not `factual` (the factual
cue "what is" does not occur in "what was the revenue?"). -/
theorem C8_classifyIntent_cex :
    ¬ classifyIntent (String.toList "What was the revenue?") = "factual" := by
  decide

/-! ## C6 and C10: the empty-retrieval path -/

theorem retrievedChunks_nil (query : List Char) (documentIds : Option (List (List Char)))
    (filters : SearchFilters) : retrievedChunks [] query documentIds filters = [] := by
  simp [retrievedChunks, searchWithEmbedding, searchCandidates, sortDescBy]

theorem ragQuery_of_empty (vectors : List StoredVector) (query : List Char)
    (documentIds : Option (List (List Char))) (filters : SearchFilters)
    (h : retrievedChunks vectors query documentIds filters = []) :
    ragQuery vectors query documentIds filters =
      { answer := noChunksAnswer query
        sources := []
        relevanceScore := 0
        context := []
        queryIntent := "information_request"
        metrics := ⟨0, 0, 0, 0, 0⟩ } := by
  rw [ragQuery]
  simp [h]

/-- C6: when the filtered retrieval yields zero passages the pipeline
produces (without a fault, being a total function) the structured
no-evidence result: relevance `0`, no sources, all four metrics and the
overall score `0`, and the non-empty templated answer naming the query. -/
theorem C6_emptyRetrieval_wellFormed (vectors : List StoredVector) (query : List Char)
    (documentIds : Option (List (List Char))) (filters : SearchFilters)
    (h : retrievedChunks vectors query documentIds filters = []) :
    (ragQuery vectors query documentIds filters).relevanceScore = 0 ∧
    (ragQuery vectors query documentIds filters).sources = [] ∧
    (ragQuery vectors query documentIds filters).metrics = ⟨0, 0, 0, 0, 0⟩ ∧
    (ragQuery vectors query documentIds filters).answer = noChunksAnswer query ∧
    (ragQuery vectors query documentIds filters).answer ≠ [] := by
  rw [ragQuery_of_empty vectors query documentIds filters h]
  refine ⟨rfl, rfl, rfl, rfl, ?_⟩
  have h1 : String.toList
      "I couldn\x27t find specific information to answer your question: \"" ≠ [] := by
    decide
  unfold noChunksAnswer
  exact List.append_ne_nil_of_left_ne_nil h1 _

theorem C6_emptyRetrieval_wellFormed_witness :
    (ragQuery [] (String.toList "what is love") none {}).relevanceScore = 0 ∧
    (ragQuery [] (String.toList "what is love") none {}).sources = [] ∧
    (ragQuery [] (String.toList "what is love") none {}).answer ≠ [] := by
  have h := C6_emptyRetrieval_wellFormed [] (String.toList "what is love") none {}
    (retrievedChunks_nil _ _ _)
  exact ⟨h.1, h.2.1, h.2.2.2.2⟩

/-- C10: on the empty-retrieval path the reported intent is the hard-coded
constant `information_request`, discarding the classified intent of the
query; only when at least one passage is retrieved is the classified intent
reported. -/
theorem C10_queryIntent_reporting (vectors : List StoredVector) (query : List Char)
    (documentIds : Option (List (List Char))) (filters : SearchFilters) :
    (retrievedChunks vectors query documentIds filters = [] →
      (ragQuery vectors query documentIds filters).queryIntent = "information_request") ∧
    (retrievedChunks vectors query documentIds filters ≠ [] →
      (ragQuery vectors query documentIds filters).queryIntent = classifyIntent query) := by
  constructor
  · intro h
    rw [ragQuery_of_empty vectors query documentIds filters h]
  · intro h
    rw [ragQuery]
    simp only [List.length_eq_zero, h, if_false]

/-- Witness for C10: "how to bake bread" classifies as `procedural`, yet an
empty store reports `information_request`. -/
theorem C10_queryIntent_reporting_witness :
    (ragQuery [] (String.toList "how to bake bread") none {}).queryIntent =
      "information_request" ∧
    classifyIntent (String.toList "how to bake bread") = "procedural" :=
  ⟨(C10_queryIntent_reporting [] (String.toList "how to bake bread") none {}).1
    (retrievedChunks_nil _ _ _), by decide⟩

/-! ## C7: the RAGAS proxy metrics -/

theorem splitWsF_ne_nil (l : List Char) : ∀ st, splitWsF l st ≠ [] := by
  induction l with
  | nil =>
    intro st
    cases st <;> simp [splitWsF]
  | cons c rest ih =>
    intro st
    cases st with
    | none =>
      cases hw : isWsChar c with
      | true =>
        simp only [splitWsF, hw, if_true]
        exact ih none
      | false =>
        simp only [splitWsF, hw, Bool.false_eq_true, if_false]
        exact ih (some [c])
    | some acc =>
      cases hw : isWsChar c with
      | true => simp [splitWsF, hw]
      | false =>
        simp only [splitWsF, hw, Bool.false_eq_true, if_false]
        exact ih (some (c :: acc))

theorem wordSet_ne_nil (t : List Char) : wordSet t ≠ [] := by
  rw [wordSet]
  intro h
  exact splitWsF_ne_nil (t.map Char.toLower) (some []) ((List.dedup_eq_nil _).mp h)

theorem wordSet_length_pos (t : List Char) : 1 ≤ (wordSet t).length :=
  List.length_pos.mpr (wordSet_ne_nil t)

theorem div_max_bounds {a b : ℕ} (hab : a ≤ b) :
    0 ≤ (a : ℝ) / ((max b 1 : ℕ) : ℝ) ∧ (a : ℝ) / ((max b 1 : ℕ) : ℝ) ≤ 1 := by
  have hpos : (0 : ℝ) < ((max b 1 : ℕ) : ℝ) := by
    exact_mod_cast Nat.lt_of_lt_of_le Nat.zero_lt_one (le_max_right b 1)
  refine ⟨by positivity, ?_⟩
  rw [div_le_one hpos]
  exact_mod_cast le_trans hab (le_max_left b 1)

/-- C7: the evidence scorer returns the four stated lexical-overlap ratios,
each in [0,1] (with `max(·,1)` divisors made exact: token sets of a split
string are never empty, so only an empty source list can zero the
contextPrecision divisor, giving 0), and the overall score is the
arithmetic mean of the four. -/
theorem C7_ragasMetrics_spec (query response : List Char) (sources : List SearchResult) :
    calculateRAGASMetrics query response sources =
      ⟨calculateFaithfulness response sources, calculateAnswerRelevancy query response,
        calculateContextRecall query sources, calculateContextPrecision query sources,
        (calculateFaithfulness response sources + calculateAnswerRelevancy query response +
          calculateContextRecall query sources + calculateContextPrecision query sources) / 4⟩ ∧
    (0 ≤ calculateFaithfulness response sources ∧ calculateFaithfulness response sources ≤ 1) ∧
    (0 ≤ calculateAnswerRelevancy query response ∧
      calculateAnswerRelevancy query response ≤ 1) ∧
    (0 ≤ calculateContextRecall query sources ∧ calculateContextRecall query sources ≤ 1) ∧
    (0 ≤ calculateContextPrecision query sources ∧
      calculateContextPrecision query sources ≤ 1) ∧
    calculateFaithfulness response sources =
      (((wordSet response).filter (fun w =>
        ((sources.map (fun s => splitWs (s.vec.content.map Char.toLower))).flatten).contains
          w)).length : ℝ) / ((wordSet response).length : ℝ) ∧
    calculateAnswerRelevancy query response =
      (((wordSet query).filter (fun w => (wordSet response).contains w)).length : ℝ) /
        ((wordSet query).length : ℝ) ∧
    calculateContextRecall query sources =
      (((wordSet query).filter (fun w =>
        ((sources.map (fun s => splitWs (s.vec.content.map Char.toLower))).flatten).contains
          w)).length : ℝ) / ((wordSet query).length : ℝ) ∧
    (sources = [] → calculateContextPrecision query sources = 0) ∧
    (sources ≠ [] → calculateContextPrecision query sources =
      ((sources.filter (fun s => decide (0 < ((wordSet query).filter
        (fun w => (wordSet s.vec.content).contains w)).length))).length : ℝ) /
        (sources.length : ℝ)) := by
  have hr := wordSet_length_pos response
  have hq := wordSet_length_pos query
  have hmaxr : max (wordSet response).length 1 = (wordSet response).length :=
    Nat.max_eq_left hr
  have hmaxq : max (wordSet query).length 1 = (wordSet query).length :=
    Nat.max_eq_left hq
  refine ⟨rfl, ?_, ?_, ?_, ?_, ?_, ?_, ?_, ?_, ?_⟩
  · rw [calculateFaithfulness]
    exact div_max_bounds (List.length_filter_le _ _)
  · rw [calculateAnswerRelevancy]
    exact div_max_bounds (List.length_filter_le _ _)
  · rw [calculateContextRecall]
    exact div_max_bounds (List.length_filter_le _ _)
  · rw [calculateContextPrecision]
    exact div_max_bounds (List.length_filter_le _ _)
  · rw [calculateFaithfulness, hmaxr]
  · rw [calculateAnswerRelevancy, hmaxq]
  · rw [calculateContextRecall, hmaxq]
  · intro h
    subst h
    simp [calculateContextPrecision]
  · intro h
    rw [calculateContextPrecision, Nat.max_eq_left (List.length_pos.mpr h)]

theorem C7_ragasMetrics_spec_witness :
    calculateContextPrecision (String.toList "what is love") [] = 0 :=
  (C7_ragasMetrics_spec (String.toList "what is love") (String.toList "love")
    []).2.2.2.2.2.2.2.2.1 rfl

/-! ## C3: the reranker -/

/-- The composite score as the frozen claim words it — written from the
claim, not from the source, as the refinement target: word overlap over the
extracted keyword set (stop words dropped, length > 2, capped at 10), `0`
when the query has no keywords. -/
noncomputable def claimedChunkRelevance (query : List Char) (chunk : SearchResult) : ℝ :=
  let keywordSet := (extractKeywords query).dedup
  let chunkWords := wordSet chunk.vec.content
  let wordOverlapScore : ℝ :=
    if keywordSet.length = 0 then 0
    else ((keywordSet.filter (fun w => chunkWords.contains w)).length : ℝ) / keywordSet.length
  let vectorScore := chunk.similarity
  let lengthScore := min ((chunk.vec.content.length : ℝ) / 500) 1
  let metadataBonus : ℝ := if chunk.vec.semanticChunk then 1 / 10 else 0
  wordOverlapScore * (2 / 5) + vectorScore * (2 / 5) + lengthScore * (1 / 10) + metadataBonus

/-- The chunk used by the C3 counterexample: content "the", similarity 0,
no semantic-chunk flag. -/
def cexChunk : SearchResult :=
  ⟨⟨String.toList "d1", String.toList "the", String.toList "text", false, [1]⟩, 0⟩

/-- C3 as frozen is false: for the query "is the" (all stop words) the
claim's keyword-set overlap is 0 and its score 3/5000, but the code measures
overlap against the full query word set (ragPipeline.js:243), giving 1/2
overlap and score 1/5 + 3/5000. -/
theorem C3_rerank_cex :
    calculateChunkRelevance (String.toList "is the") cexChunk ≠
      claimedChunkRelevance (String.toList "is the") cexChunk := by
  have e1 : ((wordSet (String.toList "is the")).filter
      (fun w => (wordSet (String.toList "the")).contains w)).length = 1 := by decide
  have e2 : (wordSet (String.toList "is the")).length = 2 := by decide
  have e3 : (extractKeywords (String.toList "is the")).dedup.length = 0 := by decide
  have e4 : (String.toList "the").length = 3 := by decide
  simp only [calculateChunkRelevance, claimedChunkRelevance, cexChunk]
  rw [e1, e2, e3, e4]
  rw [min_eq_left (by norm_num : (((3 : ℕ) : ℝ)) / 500 ≤ 1)]
  norm_num

/-- C3 (amended): the reranker's composite score per candidate is
`0.4 * wordOverlap + 0.4 * vectorSimilarity + 0.1 * lengthScore +
metadataBonus`, where `wordOverlap` is measured against the full lowercased
word set of the query (ragPipeline.js:243) — not the extracted keyword set —
a set that is never empty, so no zero-keyword case arises; candidates are
sorted descending by this score, stably (ties keep arrival order), and the
pipeline truncates the reranked list to the final top-K = 5. -/
theorem C3_rerank_spec (query : List Char) (chunks : List SearchResult) :
    (∀ c : SearchResult, calculateChunkRelevance query c =
      (((wordSet query).filter (fun w => (wordSet c.vec.content).contains w)).length : ℝ) /
        ((wordSet query).length : ℝ) * (2 / 5) +
      c.similarity * (2 / 5) + min ((c.vec.content.length : ℝ) / 500) 1 * (1 / 10) +
      (if c.vec.semanticChunk then (1 : ℝ) / 10 else 0)) ∧
    (rerank query chunks).Perm chunks ∧
    (rerank query chunks).Pairwise
      (fun a b => calculateChunkRelevance query b ≤ calculateChunkRelevance query a) ∧
    (∀ s : ℝ, (rerank query chunks).filter
        (fun c => decide (calculateChunkRelevance query c = s)) =
      chunks.filter (fun c => decide (calculateChunkRelevance query c = s))) ∧
    (∀ (vectors : List StoredVector) (documentIds : Option (List (List Char)))
        (filters : SearchFilters),
      (ragQuery vectors query documentIds filters).sources =
        if (retrievedChunks vectors query documentIds filters).length = 0 then []
        else ((rerank query (retrievedChunks vectors query documentIds filters)).take 5).map
          (fun c => ⟨c.vec.content, c.similarity, c.vec.documentId, c.vec.typeTag,
            c.vec.semanticChunk⟩)) := by
  refine ⟨fun c => rfl, sortDescBy_perm _ _, sortDescBy_pairwise _ _,
    fun s => sortDescBy_filter _ _ s, ?_⟩
  intro vectors documentIds filters
  rw [ragQuery]
  by_cases h : (retrievedChunks vectors query documentIds filters).length = 0
  · rw [if_pos h, if_pos h]
  · rw [if_neg h, if_neg h]

/-! ## C5: shape and norm of the hash embeddings -/

theorem addAt_length (v : List ℝ) (i : ℕ) (x : ℝ) : (addAt v i x).length = v.length :=
  List.length_set v i _

theorem foldAdd_length {α : Type} (f : α → ℕ) (g : α → ℝ) (l : List α) (v : List ℝ) :
    (l.foldl (fun v a => addAt v (f a) (g a)) v).length = v.length := by
  induction l generalizing v with
  | nil => rfl
  | cons a l ih => rw [List.foldl_cons, ih, addAt_length]

theorem getD_replicate_zero (n j : ℕ) : (List.replicate n (0 : ℝ)).getD j 0 = 0 := by
  induction n generalizing j with
  | zero => rfl
  | succ m ih =>
    cases j with
    | zero => rfl
    | succ i =>
      rw [List.replicate_succ, List.getD_cons_succ]
      exact ih i

theorem addAt_getD_self (v : List ℝ) (i : ℕ) (x : ℝ) (hi : i < v.length) :
    (addAt v i x).getD i 0 = v.getD i 0 + x := by
  rw [addAt, List.getD_eq_getElem?_getD, List.getElem?_set]
  simp [hi, List.getD_eq_getElem?_getD]

theorem addAt_getD_ne (v : List ℝ) (i j : ℕ) (x : ℝ) (hij : i ≠ j) :
    (addAt v i x).getD j 0 = v.getD j 0 := by
  rw [addAt, List.getD_eq_getElem?_getD, List.getElem?_set, if_neg hij,
    ← List.getD_eq_getElem?_getD]

theorem addAt_getD_le (v : List ℝ) (i j : ℕ) (x : ℝ) (hx : 0 ≤ x) :
    v.getD j 0 ≤ (addAt v i x).getD j 0 := by
  by_cases hij : i = j
  · subst hij
    by_cases hi : i < v.length
    · rw [addAt_getD_self v i x hi]
      linarith
    · rw [addAt, List.set_eq_of_length_le (by omega)]
  · rw [addAt_getD_ne v i j x hij]

theorem foldAdd_getD_le {α : Type} (f : α → ℕ) (g : α → ℝ) (l : List α)
    (hg : ∀ a ∈ l, 0 ≤ g a) (v : List ℝ) (j : ℕ) :
    v.getD j 0 ≤ (l.foldl (fun v a => addAt v (f a) (g a)) v).getD j 0 := by
  induction l generalizing v with
  | nil => exact le_refl _
  | cons a l ih =>
    rw [List.foldl_cons]
    exact le_trans (addAt_getD_le v (f a) j (g a) (hg a (List.mem_cons_self a l)))
      (ih (fun b hb => hg b (List.mem_cons_of_mem a hb)) _)

theorem sumSq_pos_of_entry (v : List ℝ) (j : ℕ) (hj : j < v.length)
    (h : v.getD j 0 ≠ 0) : 0 < sumSq v := by
  rw [sumSq_eq_sum_map]
  have hgd : v.getD j 0 = v[j] := List.getD_eq_getElem v 0 hj
  have hmem : v.getD j 0 * v.getD j 0 ∈ v.map (fun x => x * x) := by
    rw [List.mem_map]
    exact ⟨v[j], List.getElem_mem hj, by rw [hgd]⟩
  have hpos : 0 < v.getD j 0 * v.getD j 0 := mul_self_pos.mpr h
  refine lt_of_lt_of_le hpos (List.single_le_sum (fun x hx => ?_) _ hmem)
  obtain ⟨y, _, rfl⟩ := List.mem_map.mp hx
  exact mul_self_nonneg y

theorem sumSq_map_div (v : List ℝ) (m : ℝ) :
    sumSq (v.map (fun x => x / m)) = sumSq v / (m * m) := by
  induction v with
  | nil => simp [sumSq]
  | cons a l ih =>
    rw [List.map_cons, sumSq_cons, sumSq_cons, ih, div_mul_div_comm, add_div]

theorem sqrt_sumSq_normalize (v : List ℝ) (h : 0 < sumSq v) :
    Real.sqrt (sumSq (v.map (fun x => x / Real.sqrt (sumSq v)))) = 1 := by
  rw [sumSq_map_div, Real.mul_self_sqrt h.le, div_self h.ne', Real.sqrt_one]

theorem foldl_getD_le {α : Type} (step : List ℝ → α → List ℝ) (j : ℕ)
    (hstep : ∀ v a, v.getD j 0 ≤ (step v a).getD j 0) (l : List α) (v : List ℝ) :
    v.getD j 0 ≤ (l.foldl step v).getD j 0 := by
  induction l generalizing v with
  | nil => exact le_refl _
  | cons a l ih => exact le_trans (hstep v a) (ih _)

theorem foldl_length_inv {α : Type} (step : List ℝ → α → List ℝ)
    (hstep : ∀ v a, (step v a).length = v.length) (l : List α) (v : List ℝ) :
    (l.foldl step v).length = v.length := by
  induction l generalizing v with
  | nil => rfl
  | cons a l ih => rw [List.foldl_cons, ih, hstep]

theorem vsAccumulated_length (text : List Char) : (vsAccumulated text).length = 384 := by
  simp only [vsAccumulated]
  rw [foldl_length_inv (fun v (ic : ℕ × Char) => addAt v ((ic.2.toNat * ic.1) % 384) (1 / 10))
      (fun v a => addAt_length v _ _),
    foldl_length_inv (fun v (w : List Char) => addAt v (hashIndex w) 1) (fun v a => addAt_length v _ _),
    List.length_replicate]

theorem ragAccumulated_length (text : List Char) : (ragAccumulated text).length = 384 := by
  simp only [ragAccumulated]
  rw [foldl_length_inv (fun v (w : List Char) => addAt v (hashIndex w) 1) (fun v a => addAt_length v _ _),
    List.length_replicate]

theorem charFold_entry0 (v : List ℝ) (hv : 0 ≤ v.getD 0 0) (hlen : v.length = 384)
    (c0 : Char) (cs : List (ℕ × Char)) :
    1 / 10 ≤ (((0, c0) :: cs).foldl
      (fun v ic => addAt v ((ic.2.toNat * ic.1) % 384) (1 / 10)) v).getD 0 0 := by
  rw [List.foldl_cons]
  refine le_trans ?_ (foldl_getD_le _ 0
    (fun v a => addAt_getD_le v _ 0 _ (by norm_num)) cs _)
  have h0 : ((c0.toNat * 0) % 384) = 0 := by simp
  rw [h0, addAt_getD_self v 0 (1 / 10) (by rw [hlen]; norm_num)]
  linarith

theorem vsAccumulated_entry0 (text : List Char) :
    1 / 10 ≤ (vsAccumulated text).getD 0 0 := by
  have ht : (if text = [] then String.toList "default text" else text) ≠ [] := by
    by_cases h : text = []
    · rw [if_pos h]
      decide
    · rw [if_neg h]
      exact h
  obtain ⟨c0, rest, htc⟩ := List.exists_cons_of_ne_nil ht
  simp only [vsAccumulated, htc]
  rw [show (c0 :: rest).take 100 = c0 :: rest.take 99 from rfl, List.enum_cons]
  refine charFold_entry0 _ ?_ ?_ c0 _
  · refine le_trans (le_of_eq (getD_replicate_zero 384 0).symm) ?_
    exact foldl_getD_le _ 0 (fun v a => addAt_getD_le v _ 0 _ (by norm_num)) _ _
  · rw [foldl_length_inv (fun v w => addAt v (hashIndex w) 1)
      (fun v a => addAt_length v _ _), List.length_replicate]

theorem vsAccumulated_sumSq_pos (text : List Char) : 0 < sumSq (vsAccumulated text) := by
  refine sumSq_pos_of_entry _ 0 ?_ ?_
  · rw [vsAccumulated_length text]
    norm_num
  · have h := vsAccumulated_entry0 text
    exact ne_of_gt (lt_of_lt_of_le (by norm_num) h)

theorem ragAccumulated_entry (text : List Char) :
    ∃ j < 384, 1 ≤ (ragAccumulated text).getD j 0 := by
  obtain ⟨w, ws, hws⟩ := List.exists_cons_of_ne_nil
    (show splitWs (text.map Char.toLower) ≠ [] from
      splitWsF_ne_nil (text.map Char.toLower) (some []))
  refine ⟨hashIndex w, Nat.mod_lt _ (by norm_num), ?_⟩
  simp only [ragAccumulated, hws]
  rw [List.foldl_cons]
  refine le_trans ?_ (foldl_getD_le _ (hashIndex w)
    (fun v a => addAt_getD_le v _ (hashIndex w) _ (by norm_num)) ws _)
  rw [addAt_getD_self _ (hashIndex w) 1
    (by rw [List.length_replicate]; exact Nat.mod_lt _ (by norm_num)),
    getD_replicate_zero]
  norm_num

theorem ragAccumulated_sumSq_pos (text : List Char) : 0 < sumSq (ragAccumulated text) := by
  obtain ⟨j, hj, hge⟩ := ragAccumulated_entry text
  refine sumSq_pos_of_entry _ j ?_ (ne_of_gt (lt_of_lt_of_le (by norm_num) hge))
  rw [ragAccumulated_length text]
  exact hj

/-- The unit vector at index 0 named by the claim. -/
noncomputable def unitVec0 : List ℝ := 1 :: List.replicate 383 0

/-- C5 (amended): both hash-embedding fallbacks always return a vector of
length exactly 384 with L2 norm 1.  The zero-magnitude guard of the
VectorStore version (write a single `1` at index 0) is unreachable: the
accumulated vector always has positive squared magnitude — empty text is
replaced by `'default text'`, any non-empty text contributes `0.1` at index
0 through the character loop, and in the pipeline version every token adds
`1` somewhere — so the result is always the normalized accumulated vector,
and in particular empty text does NOT produce the unit vector at index 0. -/
theorem C5_hashEmbedding_unitNorm (t : List Char) :
    (vsSimpleHashEmbedding t).length = 384 ∧
    Real.sqrt (sumSq (vsSimpleHashEmbedding t)) = 1 ∧
    (ragSimpleHashEmbedding t).length = 384 ∧
    Real.sqrt (sumSq (ragSimpleHashEmbedding t)) = 1 ∧
    0 < sumSq (vsAccumulated t) ∧
    0 < sumSq (ragAccumulated t) := by
  have hv := vsAccumulated_sumSq_pos t
  have hr := ragAccumulated_sumSq_pos t
  have hmagv : Real.sqrt (sumSq (vsAccumulated t)) ≠ 0 := Real.sqrt_ne_zero'.mpr hv
  have hbranch : vsSimpleHashEmbedding t =
      (vsAccumulated t).map (fun x => x / Real.sqrt (sumSq (vsAccumulated t))) := by
    simp only [vsSimpleHashEmbedding]
    rw [if_neg hmagv]
  refine ⟨?_, ?_, ?_, ?_, hv, hr⟩
  · rw [hbranch, List.length_map, vsAccumulated_length]
  · rw [hbranch, sqrt_sumSq_normalize _ hv]
  · simp only [ragSimpleHashEmbedding]
    rw [List.length_map, ragAccumulated_length]
  · simp only [ragSimpleHashEmbedding]
    rw [sqrt_sumSq_normalize _ hr]

set_option maxRecDepth 8192 in
theorem vsAccumulated_nil_entry : 1 ≤ (vsAccumulated []).getD 321 0 := by
  have hwords : (splitWs ((String.toList "default text").map Char.toLower)).filter
      (fun w => 2 < w.length) = [String.toList "default", String.toList "text"] := by decide
  have hidx : hashIndex (String.toList "default") = 321 := by decide
  simp only [vsAccumulated]
  rw [if_pos trivial]
  rw [hwords, List.foldl_cons, List.foldl_cons, List.foldl_nil, hidx]
  refine le_trans ?_ (foldl_getD_le _ 321
    (fun v a => addAt_getD_le v _ 321 _ (by norm_num)) _ _)
  refine le_trans ?_ (addAt_getD_le _ (hashIndex (String.toList "text")) 321 1 (by norm_num))
  rw [addAt_getD_self _ 321 1 (by rw [List.length_replicate]; norm_num), getD_replicate_zero]
  norm_num

/-- C5 as frozen is false at its own example: on empty text the VectorStore
fallback does NOT return the unit vector at index 0 — the empty input is
replaced by `'default text'` (vectorStore.js:138-141), whose accumulated
vector has mass at index 321 (the hash index of "default"), so the
normalized result is nonzero there while the claimed unit vector is zero
there. -/
theorem C5_hashEmbedding_cex : vsSimpleHashEmbedding [] ≠ unitVec0 := by
  have hpos := vsAccumulated_sumSq_pos []
  have hmag : Real.sqrt (sumSq (vsAccumulated [])) ≠ 0 := Real.sqrt_ne_zero'.mpr hpos
  have hmagpos : 0 < Real.sqrt (sumSq (vsAccumulated [])) := Real.sqrt_pos.mpr hpos
  have hlen : (vsAccumulated []).length = 384 := vsAccumulated_length []
  have hb : 321 < (vsAccumulated []).length := by
    rw [hlen]
    norm_num
  have hbranch : vsSimpleHashEmbedding [] =
      (vsAccumulated []).map (fun x => x / Real.sqrt (sumSq (vsAccumulated []))) := by
    simp only [vsSimpleHashEmbedding]
    rw [if_neg hmag]
  have hb2 : 321 < ((vsAccumulated []).map
      (fun x => x / Real.sqrt (sumSq (vsAccumulated [])))).length := by
    rw [List.length_map]
    exact hb
  have hmap : ((vsAccumulated []).map
      (fun x => x / Real.sqrt (sumSq (vsAccumulated [])))).getD 321 0 =
      (vsAccumulated []).getD 321 0 / Real.sqrt (sumSq (vsAccumulated [])) := by
    rw [List.getD_eq_getElem _ 0 hb2, List.getElem_map, List.getD_eq_getElem _ 0 hb]
  have hzero : unitVec0.getD 321 0 = 0 := by
    simp only [unitVec0]
    rw [show (321 : ℕ) = 320 + 1 from rfl, List.getD_cons_succ, getD_replicate_zero]
  intro h
  have h321 := congrArg (fun l : List ℝ => l.getD 321 0) h
  simp only [hbranch, hmap, hzero] at h321
  have hdivpos : 0 < (vsAccumulated []).getD 321 0 / Real.sqrt (sumSq (vsAccumulated [])) :=
    div_pos (lt_of_lt_of_le one_pos vsAccumulated_nil_entry) hmagpos
  rw [h321] at hdivpos
  exact lt_irrefl 0 hdivpos
